import Mathlib

/-!
Verification development for the fb-leads search-session core.

The repository ships a React frontend (under `frontend/src`) that drives a
FastAPI backend exposing the LinkedIn search-session lifecycle: an
authentication state machine, a per-service rate limiter, and an
asynchronous multi-company/multi-keyword search orchestrator with caching
and paginated retrieval.  The frontend sources embed directly; the backend
service itself is not part of the source tree, so its operations are
modelled from the specification (each such definition carries a
doc comment starting with the words Modelled from the spec).
-/

namespace FbLeads

/-- Connection status of the shared LinkedIn automation session.
Embeds the `LinkedInStatus` enum of `frontend/src/types/linkedin.ts`. -/
inductive LinkedInStatus
  | disconnected
  | connecting
  | needEmailCode
  | needManualLogin
  | awaitingManualLogin
  | connected
  | busy
  | error
deriving DecidableEq

/-- Errors raised by the auth state machine when a search call is refused.
`authNotReady` carries the current status, per spec section 4.1. -/
inductive AuthError
  | authNotReady (status : LinkedInStatus)
  | authBusy
deriving DecidableEq

/-- Modelled from the spec: the acceptance/transition discipline of
`AuthStateMachine.search` and `searchCompanies` (spec section 4.1 contract);
the backend FastAPI LinkedIn service implementing it is not in the source
tree.  On acceptance it returns the status held during the call and the
status after the call. -/
def searchTransition (status : LinkedInStatus) :
    Except AuthError (LinkedInStatus × LinkedInStatus) :=
  match status with
  | .connected => .ok (.busy, .connected)
  | .busy => .error .authBusy
  | s => .error (.authNotReady s)

/-- Modelled from the spec: `AuthStateMachine.search(query, limit)`; the
backend service is not in the source tree.  The query and limit do not
influence acceptance. -/
def searchAccept (_query : String) (_limit : Nat) (status : LinkedInStatus) :
    Except AuthError (LinkedInStatus × LinkedInStatus) :=
  searchTransition status

/-- Modelled from the spec: `AuthStateMachine.searchCompanies(companies,
keywords, limitPerCompany)`; the backend service is not in the source
tree.  Same acceptance discipline as `search`. -/
def searchCompaniesAccept (_companies _keywords : List String)
    (_limitPerCompany : Nat) (status : LinkedInStatus) :
    Except AuthError (LinkedInStatus × LinkedInStatus) :=
  searchTransition status

/-- Configured limits for one external service (spec section 4.2,
mirrored by `RATE_LIMITS` in `docs/PROSPECT_FINDER_DESIGN.md`). -/
structure RateLimitConfig where
  perMinute : Nat
  perHour : Nat
  perDay : Nat
  minDelayMs : Nat
  cooldownMinutes : Nat
deriving DecidableEq

/-- Rate-limit counters for one external service (spec section 3 data
model, mirrored by the `rate_limits` schema in
`docs/PROSPECT_FINDER_DESIGN.md`).  Timestamps are abstract instants. -/
structure RateLimitState where
  requestsToday : Nat
  requestsThisHour : Nat
  requestsThisMinute : Nat
  dayStarted : Nat
  hourStarted : Nat
  minuteStarted : Nat
  cooldownUntil : Option Nat
deriving DecidableEq

/-- Whether a cooldown window is active at instant `now`. -/
def cooldownActive (st : RateLimitState) (now : Nat) : Bool :=
  match st.cooldownUntil with
  | some t => decide (now < t)
  | none => false

/-- Modelled from the spec: `RateLimiter.checkAllowed(service)` (spec
section 4.2); the backend rate limiter is not in the source tree.  It
evaluates, in order, the active cooldown and then the minute/hour/day
counters against the configured limits, returning the first violated
constraint as the reason. -/
def checkAllowed (cfg : RateLimitConfig) (st : RateLimitState) (now : Nat) :
    Bool × Option String :=
  if cooldownActive st now then (false, some "cooldown")
  else if cfg.perMinute ≤ st.requestsThisMinute then (false, some "perMinute")
  else if cfg.perHour ≤ st.requestsThisHour then (false, some "perHour")
  else if cfg.perDay ≤ st.requestsToday then (false, some "perDay")
  else (true, none)

/-- Modelled from the spec: `checkAllowed` as a state-passing operation;
it returns its verdict together with the (unchanged) rate-limit state,
making the does-not-mutate clause of spec section 4.2 explicit. -/
def checkAllowedRun (cfg : RateLimitConfig) (st : RateLimitState)
    (now : Nat) : (Bool × Option String) × RateLimitState :=
  (checkAllowed cfg st now, st)

/-- Whitespace recognized by the trimming in the frontend sources
(space, tab, newline, carriage return). -/
def isWsChar (c : Char) : Bool :=
  c == ' ' || c == '\t' || c == '\n' || c == '\r'

/-- Trim leading and trailing whitespace from a character list. -/
def trimChars (l : List Char) : List Char :=
  ((l.dropWhile isWsChar).reverse.dropWhile isWsChar).reverse

/-- JavaScript `String.prototype.trim()` as used throughout
`frontend/src/pages/NouvelleRecherche.tsx`. -/
def jsTrim (s : String) : String :=
  String.mk (trimChars s.data)

/-- JavaScript `String.prototype.toLowerCase()` restricted to the
alphabet the page actually compares: ASCII letters plus the Latin-1
uppercase letters (used by the accented header name in the recognized
company-column list). -/
def jsLowerChar (c : Char) : Char :=
  let n := c.toNat
  if 65 ≤ n ∧ n ≤ 90 then Char.ofNat (n + 32)
  else if 192 ≤ n ∧ n ≤ 222 ∧ n ≠ 215 then Char.ofNat (n + 32)
  else c

/-- Lower-case every character of a string (JavaScript semantics for the
characters in play). -/
def jsLower (s : String) : String :=
  String.mk (s.data.map jsLowerChar)

/-- Modelled from the spec: the normalized form of a free-text key
(case-folded and whitespace-trimmed, spec sections 3 and 4.4); the backend
cache and orchestrator applying it are not in the source tree. -/
def normKey (s : String) : String :=
  jsLower (jsTrim s)

/-- Modelled from the spec: case-insensitive, trimmed deduplication of the
input company or keyword list (spec section 4.3 tie-break policy); the
backend orchestrator applying it is not in the source tree. -/
def dedupNorm (l : List String) : List String :=
  (l.map normKey).dedup

/-- Modelled from the spec: the deterministic cache key over the full
sorted company or keyword set (spec section 4.3); the backend orchestrator
computing it is not in the source tree. -/
def batchKey (l : List String) : List String :=
  List.insertionSort (· ≤ ·) (dedupNorm l)

/-- Lifecycle status of one batch `SearchSession` (spec section 3 data
model; the strings `completed` and `failed` are those polled by
`frontend/src/pages/NouvelleRecherche.tsx`). -/
inductive SessionStatus
  | pending
  | processing
  | completed
  | failed
deriving DecidableEq

/-- One contact found for a (company, keyword) pair (spec section 3,
mirrored by `LinkedInContact` in `frontend/src/types/linkedin.ts`). -/
structure ContactResult where
  companyName : String
  keyword : String
  contactName : String
  title : String
  location : String
  profileUrl : String
deriving DecidableEq

/-- Modelled from the spec: the `SearchSession` record for one batch
request (spec section 3 data model); the backend store persisting it is
not in the source tree.  `schedCompanies`/`schedKeywords` are the
deduplicated lists the worker iterates; `companiesKey`/`keywordsKey` the
sorted cache key. -/
structure SearchSession where
  id : Nat
  status : SessionStatus
  companiesKey : List String
  keywordsKey : List String
  schedCompanies : List String
  schedKeywords : List String
  totalCompanies : Nat
  companiesSearched : Nat
  totalResults : Nat
  errorCount : Nat
  results : List ContactResult
deriving DecidableEq

/-- Error raised synchronously by `startBatch` (spec section 7 taxonomy). -/
inductive OrchError
  | invalidRequest
deriving DecidableEq

/-- Modelled from the spec: the orchestrator's mutable state — the stored
search sessions, the shared rate-limit state and an id counter; the
backend service owning it is not in the source tree. -/
structure OrchState where
  sessions : List SearchSession
  rate : RateLimitState
  nextId : Nat
deriving DecidableEq

/-- Modelled from the spec: lookup of an identical prior completed
`SearchSession` by cache key (the isCached fast path of spec section
4.3); the backend store is not in the source tree. -/
def findCached (st : OrchState) (ck kk : List String) :
    Option SearchSession :=
  st.sessions.find? fun s =>
    decide (s.companiesKey = ck ∧ s.keywordsKey = kk ∧
      s.status = SessionStatus.completed)

/-- Modelled from the spec: the fresh `SearchSession` created by
`startBatch` (spec section 4.3: created pending, flipped to processing
before returning, with `totalCompanies` the deduplicated company count);
the backend service is not in the source tree. -/
def newSession (nid : Nat) (cs ks : List String) : SearchSession :=
  { id := nid
    status := .processing
    companiesKey := batchKey cs
    keywordsKey := batchKey ks
    schedCompanies := dedupNorm cs
    schedKeywords := dedupNorm ks
    totalCompanies := (dedupNorm cs).length
    companiesSearched := 0
    totalResults := 0
    errorCount := 0
    results := [] }

/-- Modelled from the spec: `startBatch(companies, keywords,
limitPerCompany)` (spec section 4.3): validates non-emptiness, serves the
isCached fast path from an identical completed prior session without any
new work, otherwise records a fresh processing session; the backend
service is not in the source tree. -/
def startBatch (cs ks : List String) (_limitPerCompany : Nat)
    (st : OrchState) : Except OrchError SearchSession × OrchState :=
  if cs.isEmpty || ks.isEmpty then (.error .invalidRequest, st)
  else
    match findCached st (batchKey cs) (batchKey ks) with
    | some s => (.ok s, st)
    | none =>
      let sess := newSession st.nextId cs ks
      (.ok sess, { st with sessions := sess :: st.sessions,
                           nextId := st.nextId + 1 })

/-- Outcome of the live fetch for one (company, keyword) pair: results,
a per-pair failure (rate-limit exhaustion beyond a bounded wait, auth
failure or automation error), or loss of the auth session that stops the
batch (spec sections 4.3 and 7). -/
inductive DriverResult
  | ok (contacts : List ContactResult)
  | pairFail
  | authLost

/-- Pairs scheduled by the worker: companies outer, keywords inner
(spec section 4.3 iteration order). -/
def pairList (cs ks : List String) : List (String × String) :=
  cs.flatMap fun c => ks.map fun k => (c, k)

/-- Number of contacts contributed by one pair outcome. -/
def resultCountOf : DriverResult → Nat
  | .ok l => l.length
  | _ => 0

/-- Contacts contributed by one pair outcome (empty on failure). -/
def resultsOf : DriverResult → List ContactResult
  | .ok l => l
  | _ => []

/-- Whether one pair outcome counts as an error. -/
def failCountOf : DriverResult → Nat
  | .pairFail => 1
  | _ => 0

/-- Total contacts a driver yields over the scheduled pairs. -/
def successTotal (driver : String → String → DriverResult)
    (cs ks : List String) : Nat :=
  ((pairList cs ks).map fun p => resultCountOf (driver p.1 p.2)).sum

/-- Total per-pair failures a driver yields over the scheduled pairs. -/
def errorTotal (driver : String → String → DriverResult)
    (cs ks : List String) : Nat :=
  ((pairList cs ks).map fun p => failCountOf (driver p.1 p.2)).sum

/-- Contacts collected for one company across its keywords, in keyword
order. -/
def collectK (driver : String → String → DriverResult) (c : String)
    (ks : List String) : List ContactResult :=
  (ks.map fun k => resultsOf (driver c k)).flatten

/-- Modelled from the spec: the inner worker loop over one company's
keywords (spec section 4.3): append results on success, count the error
and continue on a per-pair failure, stop with the auth-lost flag when the
session becomes unreachable; the backend service is not in the source
tree. -/
def processKeywords (driver : String → String → DriverResult) (c : String) :
    List String → SearchSession → SearchSession × Bool
  | [], s => (s, true)
  | k :: ks, s =>
    match driver c k with
    | .ok l => processKeywords driver c ks
        { s with results := s.results ++ l,
                 totalResults := s.totalResults + l.length }
    | .pairFail => processKeywords driver c ks
        { s with errorCount := s.errorCount + 1 }
    | .authLost => (s, false)

/-- Modelled from the spec: the outer worker loop over the companies
(spec section 4.3): after all keywords of a company, `companiesSearched`
is incremented; when all pairs are processed the status becomes
completed; when the auth session is lost mid-batch the status becomes
failed, preserving partial results; the backend service is not in the
source tree. -/
def processCompanies (driver : String → String → DriverResult) :
    List String → List String → SearchSession → SearchSession
  | [], _, s => { s with status := .completed }
  | c :: cs, ks, s =>
    let r := processKeywords driver c ks s
    if r.2 then
      processCompanies driver cs ks
        { r.1 with companiesSearched := r.1.companiesSearched + 1 }
    else { r.1 with status := .failed }

/-- Modelled from the spec: the asynchronous batch worker for one
session, iterating its scheduled company × keyword cross product; the
backend service is not in the source tree. -/
def runWorker (driver : String → String → DriverResult)
    (s : SearchSession) : SearchSession :=
  processCompanies driver s.schedCompanies s.schedKeywords s

/-- Modelled from the spec: replace the stored session with the given id
(how the worker's progress lands in the store); the backend store is not
in the source tree. -/
def updateSession (st : OrchState) (nid : Nat)
    (f : SearchSession → SearchSession) : OrchState :=
  { st with sessions := st.sessions.map fun s => if s.id = nid then f s else s }

/-- Orchestrator state holding no sessions yet, with the given shared
rate-limit state. -/
def initOrch (rate : RateLimitState) : OrchState :=
  { sessions := [], rate := rate, nextId := 0 }

/-- Modelled from the spec: the mutations the orchestrator may apply to a
stored `SearchSession` over its lifecycle (spec sections 3 and 4.3); the
backend service performing them is not in the source tree.  Every
mutation requires a non-terminal status. -/
inductive SessStep : SearchSession → SearchSession → Prop
  | toProcessing (s : SearchSession) : s.status = .pending →
      SessStep s { s with status := .processing }
  | appendResults (s : SearchSession) (l : List ContactResult) :
      s.status = .processing →
      SessStep s { s with results := s.results ++ l,
                          totalResults := s.totalResults + l.length }
  | recordError (s : SearchSession) : s.status = .processing →
      SessStep s { s with errorCount := s.errorCount + 1 }
  | companyDone (s : SearchSession) : s.status = .processing →
      s.companiesSearched < s.totalCompanies →
      SessStep s { s with companiesSearched := s.companiesSearched + 1 }
  | complete (s : SearchSession) : s.status = .processing →
      SessStep s { s with status := .completed }
  | fail (s : SearchSession) : s.status = .processing →
      SessStep s { s with status := .failed }

/-- Number of pages reported for `total` results at the given page size
(ceiling division, as in the `total_pages` field of
`SearchResultsPageResponse` in `frontend/src/types/linkedin.ts`). -/
def totalPagesOf (total size : Nat) : Nat :=
  (total + size - 1) / size

/-- The slice of the accumulated result sequence served for 1-based page
`page` at the given page size. -/
def pageSlice (l : List ContactResult) (page size : Nat) :
    List ContactResult :=
  (l.drop ((page - 1) * size)).take size

/-- One page of results, mirroring `SearchResultsPageResponse` of
`frontend/src/types/linkedin.ts`. -/
structure PageResponse where
  results : List ContactResult
  total : Nat
  page : Nat
  pageSize : Nat
  totalPages : Nat
  companiesSearched : Nat
  totalCompanies : Nat
  status : SessionStatus
deriving DecidableEq

/-- Modelled from the spec: `getResultsPage(sessionId, page, pageSize)`
(spec section 4.3): deterministic pagination over the session's
accumulated results in insertion order, computed against the count at
call time and independent of the session status; the backend service is
not in the source tree.  Pages are 1-based; page 0 is invalid. -/
def getResultsPage (s : SearchSession) (page size : Nat) :
    Option PageResponse :=
  if page = 0 then none
  else some
    { results := pageSlice s.results page size
      total := s.results.length
      page := page
      pageSize := size
      totalPages := totalPagesOf s.results.length size
      companiesSearched := s.companiesSearched
      totalCompanies := s.totalCompanies
      status := s.status }

/-- The recognized company-column header names, from the `exactMatches`
list in `handleFileSelect` of `frontend/src/pages/NouvelleRecherche.tsx`. -/
def headerExactMatches : List String :=
  ["entreprise", "enterprise", "company", "société", "societe",
   "nom entreprise", "nom de l\x27entreprise"]

/-- Whether one Excel cell is accepted as the company-column header:
non-empty after trimming, and its lower-cased trimmed form is one of the
recognized names (embeds the inner column loop of `handleFileSelect`,
`frontend/src/pages/NouvelleRecherche.tsx` lines 179-194, including the
redundant extra checks for `enterprise` and `entreprise`). -/
def isHeaderMatch (cell : String) : Bool :=
  let header := jsTrim cell
  if header == "" then false
  else
    let n := jsTrim (jsLower header)
    headerExactMatches.contains n || n == "enterprise" || n == "entreprise"

/-- First column index of a row holding a recognized company header. -/
def findHeaderCol (row : List String) : Option Nat :=
  row.findIdx? isHeaderMatch

/-- Scan rows from index `i`, returning the first (row, column) holding a
recognized company header. -/
def findHeaderRowAux : List (List String) → Nat → Option (Nat × Nat)
  | [], _ => none
  | r :: rest, i =>
    match findHeaderCol r with
    | some c => some (i, c)
    | none => findHeaderRowAux rest (i + 1)

/-- The header-row scan of `handleFileSelect`
(`frontend/src/pages/NouvelleRecherche.tsx` lines 171-197): only the
first `min(rows, 10)` rows are examined. -/
def findHeaderRow (rows : List (List String)) : Option (Nat × Nat) :=
  findHeaderRowAux (rows.take 10) 0

/-- Company names extracted from the data rows below the header, using
the header's column index: trimmed, non-empty, case-sensitively
deduplicated in first-seen order (`frontend/src/pages/NouvelleRecherche.tsx`
lines 217-227). -/
def extractCompanies (rows : List (List String)) (colIdx : Nat) :
    List String :=
  rows.foldl
    (fun acc row =>
      let cell := row.getD colIdx ""
      if cell == "" then acc
      else
        let name := jsTrim cell
        if name == "" then acc
        else if acc.contains name then acc
        else acc ++ [name])
    []

/-- Outcome of importing an Excel sheet on the Nouvelle Recherche page:
the error banner, the displayed columns and the loaded company list. -/
structure ExcelParseResult where
  fileError : Option String
  columns : List String
  companies : List String
deriving DecidableEq

/-- The Excel branch of `handleFileSelect`
(`frontend/src/pages/NouvelleRecherche.tsx` lines 153-234): reject the
file when no recognized header occurs in the scanned rows (clearing the
company list), otherwise display the header row's non-empty cells and
load the company names below the header column. -/
def handleExcelData (rows : List (List String)) : ExcelParseResult :=
  match findHeaderRow rows with
  | none =>
    { fileError := some
        "Le fichier Excel ne contient pas de colonne \x27Entreprise\x27."
      columns := []
      companies := [] }
  | some (i, c) =>
    { fileError := none
      columns := ((rows.getD i []).map jsTrim).filter fun h => !(h == "")
      companies := extractCompanies (rows.drop (i + 1)) c }

/-- The request body sent to `startSearchStream`, mirroring
`LinkedInCompanySearchRequest` of `frontend/src/types/linkedin.ts`. -/
structure StartSearchStreamRequest where
  companies : List String
  keywords : List String
  limitPerCompany : Nat
deriving DecidableEq

/-- The request-building logic of `handleLaunchSearch`
(`frontend/src/pages/NouvelleRecherche.tsx` lines 264-291): refuse when
no companies were imported or no keyword is non-blank, otherwise send the
companies, the non-blank keywords and a hard-coded per-company limit. -/
def launchSearchRequest (companies keywords : List String) :
    Option StartSearchStreamRequest :=
  if companies.length = 0 then none
  else
    let activeKeywords := keywords.filter fun k => !(jsTrim k == "")
    if activeKeywords.length = 0 then none
    else some
      { companies := companies
        keywords := activeKeywords
        limitPerCompany := 10 }

/-- A rate-limit state with all counters at zero and no cooldown. -/
def rl0 : RateLimitState :=
  { requestsToday := 0, requestsThisHour := 0, requestsThisMinute := 0,
    dayStarted := 0, hourStarted := 0, minuteStarted := 0,
    cooldownUntil := none }

/-- A tight sample configuration in the spirit of the scraped-service
budget (tens of requests per hour). -/
def cfgSample : RateLimitConfig :=
  { perMinute := 1, perHour := 5, perDay := 50,
    minDelayMs := 60000, cooldownMinutes := 60 }

/-- A counter state that has exhausted the sample hourly budget. -/
def stHourExhausted : RateLimitState :=
  { rl0 with requestsThisHour := 5 }

/-- A driver that succeeds on every pair with no contacts. -/
def okDriver : String → String → DriverResult :=
  fun _ _ => .ok []

/-- The spec section 8 scenario batch: three companies. -/
def scenarioCompanies : List String :=
  ["company1", "company2", "company3"]

/-- The spec section 8 scenario batch: two keywords. -/
def scenarioKeywords : List String :=
  ["keyword1", "keyword2"]

/-- A driver that fails exactly on the pair (company2, keyword1) and
returns one contact for every other pair. -/
def scenarioDriver : String → String → DriverResult :=
  fun c k =>
    if c = "company2" ∧ k = "keyword1" then .pairFail
    else .ok [{ companyName := c, keyword := k, contactName := "n",
                title := "t", location := "l", profileUrl := "u" }]

/-- A small contact used by concrete pagination checks. -/
def sampleContact (n : String) : ContactResult :=
  { companyName := "acme", keyword := "ceo", contactName := n,
    title := "t", location := "l", profileUrl := "u" }

/-- A still-processing session holding three accumulated results. -/
def sampleSession : SearchSession :=
  { newSession 0 ["acme"] ["ceo"] with
    status := .processing
    results := [sampleContact "a", sampleContact "b", sampleContact "c"]
    totalResults := 3 }

/-- Contacts collected by the worker over a whole batch, company-major. -/
def collectAll (driver : String → String → DriverResult)
    (cs ks : List String) : List ContactResult :=
  (cs.map fun c => collectK driver c ks).flatten

theorem batchKey_perm {l1 l2 : List String} (h : l1.Perm l2) :
    batchKey l1 = batchKey l2 := by
  unfold batchKey
  have hd : (dedupNorm l1).Perm (dedupNorm l2) := (h.map normKey).dedup
  exact List.eq_of_perm_of_sorted
    ((List.perm_insertionSort _ _).trans
      (hd.trans (List.perm_insertionSort _ _).symm))
    (List.sorted_insertionSort _ _) (List.sorted_insertionSort _ _)

theorem successTotal_cons (driver : String → String → DriverResult)
    (c : String) (cs ks : List String) :
    successTotal driver (c :: cs) ks =
      (ks.map fun k => resultCountOf (driver c k)).sum
        + successTotal driver cs ks := by
  simp [successTotal, pairList, List.map_map, Function.comp_def]

theorem errorTotal_cons (driver : String → String → DriverResult)
    (c : String) (cs ks : List String) :
    errorTotal driver (c :: cs) ks =
      (ks.map fun k => failCountOf (driver c k)).sum
        + errorTotal driver cs ks := by
  simp [errorTotal, pairList, List.map_map, Function.comp_def]

theorem processKeywords_spec (driver : String → String → DriverResult)
    (c : String) (ks : List String) (s : SearchSession)
    (h : ∀ k ∈ ks, driver c k ≠ .authLost) :
    processKeywords driver c ks s =
      ({ s with
          results := s.results ++ collectK driver c ks
          totalResults := s.totalResults
            + (ks.map fun k => resultCountOf (driver c k)).sum
          errorCount := s.errorCount
            + (ks.map fun k => failCountOf (driver c k)).sum }, true) := by
  induction ks generalizing s with
  | nil => simp [processKeywords, collectK]
  | cons k ks ih =>
    have hk := h k (by simp)
    have hrest : ∀ k2 ∈ ks, driver c k2 ≠ .authLost :=
      fun k2 hk2 => h k2 (by simp [hk2])
    cases hd : driver c k with
    | ok l =>
      simp only [processKeywords, hd]
      rw [ih _ hrest]
      simp [collectK, hd, resultsOf, resultCountOf, failCountOf,
        List.append_assoc, Nat.add_assoc]
    | pairFail =>
      simp only [processKeywords, hd]
      rw [ih _ hrest]
      simp [collectK, hd, resultsOf, resultCountOf, failCountOf,
        Nat.add_assoc, Nat.add_comm]
    | authLost => exact absurd hd hk

theorem processCompanies_spec (driver : String → String → DriverResult)
    (cs ks : List String) (s : SearchSession)
    (h : ∀ c ∈ cs, ∀ k ∈ ks, driver c k ≠ .authLost) :
    processCompanies driver cs ks s =
      { s with
          status := .completed
          results := s.results ++ collectAll driver cs ks
          totalResults := s.totalResults + successTotal driver cs ks
          errorCount := s.errorCount + errorTotal driver cs ks
          companiesSearched := s.companiesSearched + cs.length } := by
  induction cs generalizing s with
  | nil => simp [processCompanies, collectAll, successTotal, errorTotal,
      pairList]
  | cons c cs ih =>
    rw [processCompanies,
      processKeywords_spec driver c ks s (h c (by simp))]
    have hrest : ∀ c2 ∈ cs, ∀ k ∈ ks, driver c2 k ≠ .authLost :=
      fun c2 hc2 k hk => h c2 (by simp [hc2]) k hk
    simp only [ih _ hrest]
    simp [collectAll, successTotal_cons, errorTotal_cons,
      List.append_assoc, Nat.add_assoc, Nat.add_comm, Nat.add_left_comm]

theorem runWorker_newSession (driver : String → String → DriverResult)
    (nid : Nat) (cs ks : List String)
    (h : ∀ c k, driver c k ≠ .authLost) :
    runWorker driver (newSession nid cs ks) =
      { newSession nid cs ks with
          status := .completed
          results := collectAll driver (dedupNorm cs) (dedupNorm ks)
          totalResults := successTotal driver (dedupNorm cs) (dedupNorm ks)
          errorCount := errorTotal driver (dedupNorm cs) (dedupNorm ks)
          companiesSearched := (dedupNorm cs).length } := by
  unfold runWorker
  rw [processCompanies_spec driver _ _ _ (fun c _ k _ => h c k)]
  simp [newSession]

theorem sessStep_mono {s t : SearchSession} (h : SessStep s t)
    (hle : s.companiesSearched ≤ s.totalCompanies) :
    t.companiesSearched ≤ t.totalCompanies := by
  cases h <;> simp_all
  omega

theorem findHeaderRowAux_none (rows : List (List String)) (i : Nat)
    (h : ∀ row ∈ rows, ∀ cell ∈ row, isHeaderMatch cell = false) :
    findHeaderRowAux rows i = none := by
  induction rows generalizing i with
  | nil => rfl
  | cons r rest ih =>
    have hr : findHeaderCol r = none := by
      rw [findHeaderCol, List.findIdx?_eq_none_iff]
      exact fun cell hc => h r (List.mem_cons_self r rest) cell hc
    rw [findHeaderRowAux, hr]
    exact ih (i + 1) (fun row hrow => h row (List.mem_cons_of_mem _ hrow))

theorem join_pageSlices (l : List ContactResult) (size : Nat) (n : Nat) :
    ((List.range n).map fun i => pageSlice l (i + 1) size).flatten
      = l.take (n * size) := by
  induction n with
  | zero => simp
  | succ n ih =>
    rw [List.range_succ, List.map_append, List.flatten_append, ih]
    simp only [List.map_cons, List.map_nil, List.flatten_cons,
      List.flatten_nil, List.append_nil, pageSlice, Nat.add_sub_cancel]
    rw [Nat.succ_mul, List.take_add]

theorem length_le_totalPages_mul (len size : Nat) (hs : 0 < size) :
    len ≤ totalPagesOf len size * size := by
  unfold totalPagesOf
  rcases Nat.eq_zero_or_pos len with h0 | hpos
  · simp [h0]
  · have hdm := Nat.div_add_mod (len + size - 1) size
    have hml : (len + size - 1) % size < size := Nat.mod_lt _ hs
    rw [Nat.mul_comm]
    revert hdm
    generalize (len + size - 1) % size = m at hml
    generalize size * ((len + size - 1) / size) = t
    intro hdm
    omega

theorem pairList_length (cs ks : List String) :
    (pairList cs ks).length = cs.length * ks.length := by
  induction cs with
  | nil => simp [pairList]
  | cons c cs ih =>
    simp only [pairList] at ih ⊢
    simp [List.flatMap_cons, ih, Nat.succ_mul, Nat.add_comm]

/-- Claim C1: `search` and `searchCompanies` are accepted only when the
session status is connected (the status is busy for the duration and
reverts to connected afterwards); from disconnected, error or a login
state they fail with AuthNotReady carrying the current status; from busy
they are rejected with AuthBusy. -/
theorem search_requires_connected :
    ∀ (q : String) (lim : Nat) (cs ks : List String) (lpc : Nat)
      (st : LinkedInStatus),
      ((∃ r, searchAccept q lim st = .ok r) ↔ st = .connected) ∧
      (st = .connected →
        searchAccept q lim st = .ok (.busy, .connected) ∧
        searchCompaniesAccept cs ks lpc st = .ok (.busy, .connected)) ∧
      (st = .busy →
        searchAccept q lim st = .error .authBusy ∧
        searchCompaniesAccept cs ks lpc st = .error .authBusy) ∧
      (st ≠ .connected → st ≠ .busy →
        searchAccept q lim st = .error (.authNotReady st) ∧
        searchCompaniesAccept cs ks lpc st = .error (.authNotReady st)) := by
  intro q lim cs ks lpc st
  cases st <;>
    simp [searchAccept, searchCompaniesAccept, searchTransition]

/-- Witness for claim C1 at concrete statuses. -/
theorem search_requires_connected_witness :
    searchAccept "ceo" 10 .disconnected
        = .error (.authNotReady .disconnected) ∧
    searchCompaniesAccept ["a"] ["k"] 10 .busy = .error .authBusy ∧
    searchAccept "ceo" 10 .connected = .ok (.busy, .connected) := by
  refine ⟨?_, ?_, ?_⟩
  · exact ((search_requires_connected "ceo" 10 ["a"] ["k"] 10
      .disconnected).2.2.2 (by decide) (by decide)).1
  · exact ((search_requires_connected "ceo" 10 ["a"] ["k"] 10
      .busy).2.2.1 rfl).2
  · exact ((search_requires_connected "ceo" 10 ["a"] ["k"] 10
      .connected).2.1 rfl).1

/-- Claim C2: `checkAllowed` refuses whenever a cooldown is active
(regardless of counters) or a minute/hour/day counter has reached its
limit — in particular it never allows when `requestsThisHour` is at the
per-hour limit — it evaluates the cooldown before the counters, returns
the first violated constraint as the reason, and does not mutate the
rate-limit state. -/
theorem rate_limit_check_contract :
    ∀ (cfg : RateLimitConfig) (st : RateLimitState) (now : Nat),
      (cooldownActive st now = true →
        checkAllowed cfg st now = (false, some "cooldown")) ∧
      (cfg.perHour ≤ st.requestsThisHour →
        (checkAllowed cfg st now).1 = false) ∧
      (cfg.perMinute ≤ st.requestsThisMinute →
        (checkAllowed cfg st now).1 = false) ∧
      (cfg.perDay ≤ st.requestsToday →
        (checkAllowed cfg st now).1 = false) ∧
      (cooldownActive st now = false →
        cfg.perMinute ≤ st.requestsThisMinute →
        checkAllowed cfg st now = (false, some "perMinute")) ∧
      (cooldownActive st now = false →
        st.requestsThisMinute < cfg.perMinute →
        cfg.perHour ≤ st.requestsThisHour →
        checkAllowed cfg st now = (false, some "perHour")) ∧
      (cooldownActive st now = false →
        st.requestsThisMinute < cfg.perMinute →
        st.requestsThisHour < cfg.perHour →
        cfg.perDay ≤ st.requestsToday →
        checkAllowed cfg st now = (false, some "perDay")) ∧
      ((checkAllowed cfg st now).1 = true →
        cooldownActive st now = false ∧
        st.requestsThisMinute < cfg.perMinute ∧
        st.requestsThisHour < cfg.perHour ∧
        st.requestsToday < cfg.perDay) ∧
      (checkAllowedRun cfg st now).2 = st := by
  intro cfg st now
  refine ⟨?_, ?_, ?_, ?_, ?_, ?_, ?_, ?_, rfl⟩
  · intro h; simp [checkAllowed, h]
  · intro h
    simp only [checkAllowed]
    split_ifs <;> rfl
  · intro h
    simp only [checkAllowed]
    split_ifs <;> rfl
  · intro h
    simp only [checkAllowed]
    split_ifs <;> rfl
  · intro hc hm
    simp [checkAllowed, hc, hm]
  · intro hc hm hh
    have hm2 : ¬cfg.perMinute ≤ st.requestsThisMinute := Nat.not_le.mpr hm
    simp [checkAllowed, hc, hm2, hh]
  · intro hc hm hh hd
    have hm2 : ¬cfg.perMinute ≤ st.requestsThisMinute := Nat.not_le.mpr hm
    have hh2 : ¬cfg.perHour ≤ st.requestsThisHour := Nat.not_le.mpr hh
    simp [checkAllowed, hc, hm2, hh2, hd]
  · intro h
    simp only [checkAllowed] at h
    split_ifs at h with h1 h2 h3 h4
    exact ⟨by simpa using h1, Nat.not_le.mp h2, Nat.not_le.mp h3,
      Nat.not_le.mp h4⟩

/-- Witness for claim C2: with the hourly budget exhausted, the check
refuses. -/
theorem rate_limit_check_contract_witness :
    cfgSample.perHour ≤ stHourExhausted.requestsThisHour ∧
    (checkAllowed cfgSample stHourExhausted 0).1 = false :=
  ⟨by decide,
    (rate_limit_check_contract cfgSample stHourExhausted 0).2.1 (by decide)⟩

/-- Claim C8: `startBatch` with an empty companies list or an empty
keywords list fails synchronously with InvalidRequest and creates no
session (the orchestrator state is returned unchanged). -/
theorem startBatch_rejects_empty :
    ∀ (cs ks : List String) (lim : Nat) (st : OrchState),
      cs = [] ∨ ks = [] →
      startBatch cs ks lim st = (.error .invalidRequest, st) := by
  intro cs ks lim st h
  rcases h with h | h
  · subst h; simp [startBatch]
  · subst h; simp [startBatch]

/-- Witness for claim C8 at a concrete empty companies list. -/
theorem startBatch_rejects_empty_witness :
    startBatch [] ["CEO"] 10 (initOrch rl0) =
      (.error .invalidRequest, initOrch rl0) :=
  startBatch_rejects_empty [] ["CEO"] 10 (initOrch rl0) (Or.inl rfl)

/-- Claim C9: every startSearchStream request built by the Nouvelle
Recherche page carries a per-company limit of exactly 10, for all user
inputs. -/
theorem launch_limit_always_ten :
    ∀ (cs ks : List String) (req : StartSearchStreamRequest),
      launchSearchRequest cs ks = some req → req.limitPerCompany = 10 := by
  intro cs ks req h
  simp only [launchSearchRequest] at h
  split_ifs at h with h1 h2
  simp only [Option.some.injEq] at h
  subst h
  rfl

/-- Witness for claim C9 at a concrete import. -/
theorem launch_limit_always_ten_witness :
    ∃ req, launchSearchRequest ["Acme"] ["CEO"] = some req ∧
      req.limitPerCompany = 10 :=
  ⟨{ companies := ["Acme"], keywords := ["CEO"], limitPerCompany := 10 },
    by decide,
    launch_limit_always_ten ["Acme"] ["CEO"]
      { companies := ["Acme"], keywords := ["CEO"], limitPerCompany := 10 }
      (by decide)⟩

/-- Claim C10: only the first 10 rows of an imported Excel sheet are
scanned for a recognized company-column header; when none of them holds
one, the file is rejected with an error and zero companies are loaded,
even if a matching header exists in a later row. -/
theorem excel_header_scan_limited :
    ∀ rows : List (List String),
      (∀ row ∈ rows.take 10, ∀ cell ∈ row, isHeaderMatch cell = false) →
      (handleExcelData rows).fileError.isSome = true ∧
      (handleExcelData rows).companies = [] := by
  intro rows h
  have hnone : findHeaderRow rows = none := findHeaderRowAux_none _ 0 h
  constructor <;> simp [handleExcelData, hnone]

/-- Claim C4: `startBatch` deduplicates company names and keywords
case-insensitively after trimming before any pair is scheduled, and
`totalCompanies` of the returned session is the deduplicated company
count; the scheduled work is the full cross product of the deduplicated
lists. -/
theorem startBatch_dedup_schedule :
    ∀ (cs ks : List String) (lim : Nat) (st : OrchState),
      cs.isEmpty = false → ks.isEmpty = false →
      findCached st (batchKey cs) (batchKey ks) = none →
      (startBatch cs ks lim st).1 = .ok (newSession st.nextId cs ks) ∧
      (newSession st.nextId cs ks).totalCompanies = (dedupNorm cs).length ∧
      (newSession st.nextId cs ks).schedCompanies = dedupNorm cs ∧
      (newSession st.nextId cs ks).schedKeywords = dedupNorm ks ∧
      (pairList (dedupNorm cs) (dedupNorm ks)).length
        = (dedupNorm cs).length * (dedupNorm ks).length := by
  intro cs ks lim st h1 h2 h3
  refine ⟨?_, rfl, rfl, rfl, pairList_length _ _⟩
  simp [startBatch, h1, h2, h3]

/-- Witness for claim C4: the spec section 8 scenario — two spellings of
Carrefour and one keyword schedule exactly one pair. -/
theorem startBatch_dedup_schedule_witness :
    (startBatch ["Carrefour", "carrefour "] ["CEO"] 10 (initOrch rl0)).1
      = .ok (newSession 0 ["Carrefour", "carrefour "] ["CEO"]) ∧
    (newSession 0 ["Carrefour", "carrefour "] ["CEO"]).totalCompanies = 1 ∧
    (pairList (dedupNorm ["Carrefour", "carrefour "])
        (dedupNorm ["CEO"])).length = 1 := by
  have h := startBatch_dedup_schedule ["Carrefour", "carrefour "] ["CEO"] 10
    (initOrch rl0) rfl rfl rfl
  have h0 : (initOrch rl0).nextId = 0 := rfl
  rw [h0] at h
  refine ⟨h.1, ?_, ?_⟩
  · rw [h.2.1]; decide
  · rw [h.2.2.2.2]; decide

/-- Claim C5: with the auth session reachable throughout, a per-pair
failure records zero results for that pair, increments the error counter
and moves on: the batch always terminates completed, with totals summing
over the successful pairs only. -/
theorem worker_absorbs_pair_failures :
    ∀ (driver : String → String → DriverResult) (nid : Nat)
      (cs ks : List String),
      (∀ c k, driver c k ≠ .authLost) →
      (runWorker driver (newSession nid cs ks)).status = .completed ∧
      (runWorker driver (newSession nid cs ks)).totalResults
        = successTotal driver (dedupNorm cs) (dedupNorm ks) ∧
      (runWorker driver (newSession nid cs ks)).errorCount
        = errorTotal driver (dedupNorm cs) (dedupNorm ks) ∧
      (runWorker driver (newSession nid cs ks)).companiesSearched
        = (dedupNorm cs).length := by
  intro driver nid cs ks h
  rw [runWorker_newSession driver nid cs ks h]
  exact ⟨rfl, rfl, rfl, rfl⟩

/-- Witness for claim C5: the spec section 8 scenario — 3 companies × 2
keywords with the driver failing only on (company2, keyword1) ends
completed with 5 results and one recorded error. -/
theorem worker_absorbs_pair_failures_witness :
    (runWorker scenarioDriver
        (newSession 0 scenarioCompanies scenarioKeywords)).status
      = .completed ∧
    (runWorker scenarioDriver
        (newSession 0 scenarioCompanies scenarioKeywords)).totalResults
      = 5 ∧
    (runWorker scenarioDriver
        (newSession 0 scenarioCompanies scenarioKeywords)).errorCount
      = 1 := by
  have hnl : ∀ c k, scenarioDriver c k ≠ DriverResult.authLost := by
    intro c k
    unfold scenarioDriver
    split <;> simp
  have h := worker_absorbs_pair_failures scenarioDriver 0
    scenarioCompanies scenarioKeywords hnl
  refine ⟨h.1, ?_, ?_⟩
  · rw [h.2.1]; decide
  · rw [h.2.2.1]; decide

/-- Claim C6: along the orchestrator's session mutations,
`companiesSearched` never exceeds `totalCompanies`, the status only moves
forward along pending → processing → completed/failed, and a terminal
session admits no further mutation. -/
theorem session_lifecycle_invariants :
    (∀ s t : SearchSession, SessStep s t →
      s.status = t.status ∨
      (s.status = .pending ∧ t.status = .processing) ∨
      (s.status = .processing ∧
        (t.status = .completed ∨ t.status = .failed))) ∧
    (∀ s0 s : SearchSession, s0.companiesSearched = 0 →
      Relation.ReflTransGen SessStep s0 s →
      s.companiesSearched ≤ s.totalCompanies) ∧
    (∀ s t : SearchSession,
      s.status = .completed ∨ s.status = .failed → ¬SessStep s t) := by
  refine ⟨?_, ?_, ?_⟩
  · intro s t h
    cases h with
    | toProcessing hs => exact Or.inr (Or.inl ⟨hs, rfl⟩)
    | appendResults l hs => exact Or.inl rfl
    | recordError hs => exact Or.inl rfl
    | companyDone hs hlt => exact Or.inl rfl
    | complete hs => exact Or.inr (Or.inr ⟨hs, Or.inl rfl⟩)
    | fail hs => exact Or.inr (Or.inr ⟨hs, Or.inr rfl⟩)
  · intro s0 s h0 hreach
    induction hreach with
    | refl => omega
    | tail hab hbc ih => exact sessStep_mono hbc ih
  · intro s t hterm hstep
    rcases hterm with h | h <;> cases hstep <;> simp_all

/-- Witness for claim C6 at a freshly created session. -/
theorem session_lifecycle_invariants_witness :
    (newSession 0 ["acme"] ["ceo"]).companiesSearched
      ≤ (newSession 0 ["acme"] ["ceo"]).totalCompanies :=
  session_lifecycle_invariants.2.1 (newSession 0 ["acme"] ["ceo"])
    (newSession 0 ["acme"] ["ceo"]) rfl Relation.ReflTransGen.refl

/-- Claim C7: over pages 1..totalPages, `getResultsPage` serves disjoint,
order-preserving slices of the accumulated result sequence whose
concatenation is the full sequence at call time, and page 1 is servable
even while the session is still processing. -/
theorem pagination_partition :
    ∀ (s : SearchSession) (size : Nat), 0 < size →
      ((List.range (totalPagesOf s.results.length size)).map
          fun i => pageSlice s.results (i + 1) size).flatten = s.results ∧
      (∀ p q : Nat, 1 ≤ p → p < q →
        (p - 1) * size + (pageSlice s.results p size).length
          ≤ (q - 1) * size) ∧
      (s.status = .processing →
        (getResultsPage s 1 size).isSome = true) := by
  intro s size hs
  refine ⟨?_, ?_, ?_⟩
  · rw [join_pageSlices]
    exact List.take_of_length_le (length_le_totalPages_mul _ _ hs)
  · intro p q hp hq
    have hlen : (pageSlice s.results p size).length ≤ size := by
      simp [pageSlice, List.length_take]
    have hps : p ≤ q - 1 := by omega
    calc (p - 1) * size + (pageSlice s.results p size).length
        ≤ (p - 1) * size + size := Nat.add_le_add_left hlen _
      _ = ((p - 1) + 1) * size := by rw [Nat.succ_mul]
      _ = p * size := by congr 1; omega
      _ ≤ (q - 1) * size := mul_le_mul_right' hps size
  · intro _
    simp [getResultsPage]

/-- Witness for claim C7 on a processing session holding three results,
paged two at a time. -/
theorem pagination_partition_witness :
    (0 : Nat) < 2 ∧
    ((List.range (totalPagesOf sampleSession.results.length 2)).map
        fun i => pageSlice sampleSession.results (i + 1) 2).flatten
      = sampleSession.results ∧
    (getResultsPage sampleSession 1 2).isSome = true :=
  ⟨by decide, (pagination_partition sampleSession 2 (by decide)).1,
    (pagination_partition sampleSession 2 (by decide)).2.2 rfl⟩

/-- Claim C3: once a first batch has run to completed, a second
`startBatch` with the same company/keyword sets up to reordering returns
the same session id with status completed immediately and leaves the
orchestrator state — sessions and rate-limit state alike — unchanged
(cache-hit idempotence, no new work, no RateLimiter consumption). -/
theorem startBatch_cache_idempotent :
    ∀ (driver : String → String → DriverResult)
      (cs ks cs2 ks2 : List String) (rate : RateLimitState),
      cs ≠ [] → ks ≠ [] → cs2.Perm cs → ks2.Perm ks →
      (∀ c k, driver c k ≠ .authLost) →
      ∃ s1 st1 s2,
        startBatch cs ks 10 (initOrch rate) = (.ok s1, st1) ∧
        startBatch cs2 ks2 10 (updateSession st1 s1.id (runWorker driver))
          = (.ok s2, updateSession st1 s1.id (runWorker driver)) ∧
        s2.id = s1.id ∧ s2.status = .completed := by
  intro driver cs ks cs2 ks2 rate hc hk hpc hpk hnl
  have hce : cs.isEmpty = false := by
    cases cs with
    | nil => exact absurd rfl hc
    | cons a t => rfl
  have hke : ks.isEmpty = false := by
    cases ks with
    | nil => exact absurd rfl hk
    | cons a t => rfl
  have hc2 : cs2 ≠ [] := by
    intro h
    subst h
    exact hc hpc.symm.eq_nil
  have hk2 : ks2 ≠ [] := by
    intro h
    subst h
    exact hk hpk.symm.eq_nil
  have hce2 : cs2.isEmpty = false := by
    cases cs2 with
    | nil => exact absurd rfl hc2
    | cons a t => rfl
  have hke2 : ks2.isEmpty = false := by
    cases ks2 with
    | nil => exact absurd rfl hk2
    | cons a t => rfl
  have h1 : startBatch cs ks 10 (initOrch rate)
      = (.ok (newSession 0 cs ks),
          { sessions := [newSession 0 cs ks], rate := rate,
            nextId := 1 }) := by
    simp [startBatch, hce, hke, findCached, initOrch]
  have hwspec := runWorker_newSession driver 0 cs ks hnl
  have hwst : (runWorker driver (newSession 0 cs ks)).status
      = SessionStatus.completed := by rw [hwspec]
  have hwck : (runWorker driver (newSession 0 cs ks)).companiesKey
      = batchKey cs := by rw [hwspec]; rfl
  have hwkk : (runWorker driver (newSession 0 cs ks)).keywordsKey
      = batchKey ks := by rw [hwspec]; rfl
  have hwid : (runWorker driver (newSession 0 cs ks)).id = 0 := by
    rw [hwspec]; rfl
  have h2 : updateSession
      { sessions := [newSession 0 cs ks], rate := rate, nextId := 1 } 0
      (runWorker driver)
      = { sessions := [runWorker driver (newSession 0 cs ks)],
          rate := rate, nextId := 1 } := by
    simp [updateSession, newSession]
  have hkeyc : batchKey cs2 = batchKey cs := batchKey_perm hpc
  have hkeyk : batchKey ks2 = batchKey ks := batchKey_perm hpk
  have hfind : findCached
      { sessions := [runWorker driver (newSession 0 cs ks)],
        rate := rate, nextId := 1 }
      (batchKey cs2) (batchKey ks2)
      = some (runWorker driver (newSession 0 cs ks)) := by
    simp [findCached, List.find?, hkeyc, hkeyk, hwck, hwkk, hwst]
  have h3 : startBatch cs2 ks2 10
      { sessions := [runWorker driver (newSession 0 cs ks)],
        rate := rate, nextId := 1 }
      = (.ok (runWorker driver (newSession 0 cs ks)),
          { sessions := [runWorker driver (newSession 0 cs ks)],
            rate := rate, nextId := 1 }) := by
    simp [startBatch, hce2, hke2, hfind]
  refine ⟨newSession 0 cs ks,
    { sessions := [newSession 0 cs ks], rate := rate, nextId := 1 },
    runWorker driver (newSession 0 cs ks), h1, ?_, ?_, hwst⟩
  · rw [show (newSession 0 cs ks).id = 0 from rfl, h2]
    exact h3
  · exact hwid

/-- Witness for claim C3: a completed two-company batch served again from
cache for the reordered input. -/
theorem startBatch_cache_idempotent_witness :
    ∃ s1 st1 s2,
      startBatch ["B", "A"] ["x"] 10 (initOrch rl0) = (.ok s1, st1) ∧
      startBatch ["A", "B"] ["x"] 10
          (updateSession st1 s1.id (runWorker okDriver))
        = (.ok s2, updateSession st1 s1.id (runWorker okDriver)) ∧
      s2.id = s1.id ∧ s2.status = .completed :=
  startBatch_cache_idempotent okDriver ["B", "A"] ["x"] ["A", "B"] ["x"]
    rl0 (by decide) (by decide) (by decide) (by decide)
    (fun c k h => nomatch h)

theorem excel_header_scan_limited_witness :
    isHeaderMatch "Entreprise" = true ∧
    (handleExcelData
        (List.replicate 10 ["x"] ++ [["Entreprise"]])).fileError.isSome
      = true ∧
    (handleExcelData
        (List.replicate 10 ["x"] ++ [["Entreprise"]])).companies = [] := by
  refine ⟨by decide, ?_, ?_⟩
  · exact (excel_header_scan_limited _ (by decide)).1
  · exact (excel_header_scan_limited _ (by decide)).2

end FbLeads
